import Mathlib

/-!
Verification of the BrainDrive Library plugin (capture orchestration component).

This file shallowly embeds the TypeScript sources:
  * `services/libraryCaptureService.ts` (streaming/single-shot prompt client,
    scope-path normalization, transcript document processing),
  * `services/libraryPageDefaultsService.ts` (page default-model writer),
  * `components` capture orchestrator in `types.ts` (state machine:
    model/scope defaults, metadata-event handling, send guard, transcript
    truncation).

JavaScript strings are modelled as Lean `String`s (lists of characters);
JavaScript's `String.prototype` operations used by the sources (`trim`,
`slice`, `indexOf`, `toLowerCase`, `split`, `startsWith`, regex replaces
with the concrete patterns appearing in the sources) are re-implemented
structurally on `List Char` so that every definition evaluates by `decide`.
JSON values produced by `JSON.parse` are modelled by the inductive `Json`
below (numeric literals are modelled as integers; none of the verified
claims depends on decimal formatting). `JSON.parse` itself is an external
browser primitive and is modelled as an oracle `String → Option Json`
(`none` = the parse throws), instantiated with concrete functions in
witnesses and counterexamples.
-/

namespace BDLib

/-! ### JavaScript string primitives -/

/-- The JavaScript `WhiteSpace`/`LineTerminator` set recognized by
`String.prototype.trim` (ASCII part plus the Unicode space characters). -/
def isJsSpace (c : Char) : Bool :=
  c = ' ' || c = '\t' || c = '\n' || c = '\r' ||
  c = Char.ofNat 0x0b || c = Char.ofNat 0x0c ||
  c = Char.ofNat 0xa0 || c = Char.ofNat 0x1680 ||
  (0x2000 ≤ c.toNat && c.toNat ≤ 0x200a) ||
  c = Char.ofNat 0x2028 || c = Char.ofNat 0x2029 ||
  c = Char.ofNat 0x202f || c = Char.ofNat 0x205f ||
  c = Char.ofNat 0x3000 || c = Char.ofNat 0xfeff

/-- Drop elements satisfying `p` from the end of a list. -/
def dropTrailingWhile (p : Char → Bool) (l : List Char) : List Char :=
  (l.reverse.dropWhile p).reverse

/-- JavaScript `s.trim()` on the character list of `s`. -/
def trimList (l : List Char) : List Char :=
  dropTrailingWhile isJsSpace (l.dropWhile isJsSpace)

/-- JavaScript `s.trim()`. -/
def jsTrim (s : String) : String :=
  String.mk (trimList s.data)

/-- JavaScript `s.toLowerCase()` (ASCII range; the sources only compare
ASCII identifiers). -/
def jsToLower (s : String) : String :=
  String.mk (s.data.map Char.toLower)

/-- One step of the regex replace `/\\+/g → "/"`: every maximal run of
backslashes becomes a single forward slash.  `inRun` records whether the
previous character was a backslash. -/
def collapseBackslashAux : Bool → List Char → List Char
  | _, [] => []
  | inRun, c :: rest =>
    if c = '\\' then
      (if inRun then collapseBackslashAux true rest
       else '/' :: collapseBackslashAux true rest)
    else c :: collapseBackslashAux false rest

/-- The regex replace `/\\+/g → "/"` of the sources. -/
def collapseBackslash (l : List Char) : List Char :=
  collapseBackslashAux false l

/-- `replace(/^\/+/, "")`: strip leading forward slashes. -/
def dropLeadingSlashes (l : List Char) : List Char :=
  l.dropWhile (fun c => c = '/')

/-- `replace(/\/+$/, "")`: strip trailing forward slashes. -/
def dropTrailingSlashes (l : List Char) : List Char :=
  dropTrailingWhile (fun c => c = '/') l

/-- `normalizeScopePath` from `libraryCaptureService.ts` (identical to
`normalizePath` in the capture component):
`String(value || "").trim().replace(/\\+/g, "/").replace(/^\/+/, "").replace(/\/+$/, "")`. -/
def normalizeScopePath (s : String) : String :=
  String.mk (dropTrailingSlashes (dropLeadingSlashes (collapseBackslash (trimList s.data))))

/-! ### JSON values

`JSON.parse` results and JavaScript objects flowing through the capture
service are modelled by `Json`.  The mutual-inductive presentation (instead
of `List Json` payloads) keeps every function below structurally recursive,
so all of them evaluate inside the kernel. -/

mutual
inductive Json where
  | null : Json
  | bool (b : Bool) : Json
  | num (n : Int) : Json
  | str (s : String) : Json
  | arr (items : JsonList) : Json
  | obj (fields : JsonFields) : Json

inductive JsonList where
  | nil : JsonList
  | cons (head : Json) (tail : JsonList) : JsonList

inductive JsonFields where
  | nil : JsonFields
  | cons (key : String) (val : Json) (tail : JsonFields) : JsonFields
end

/-- Property lookup `obj[k]`: `none` models JavaScript `undefined`.
Non-objects (including arrays, whose elements carry no string keys after
`JSON.parse`) have no named properties. -/
def JsonFields.find : JsonFields → String → Option Json
  | JsonFields.nil, _ => none
  | JsonFields.cons key v rest, k => if key = k then some v else rest.find k

def getField : Json → String → Option Json
  | Json.obj fields, k => fields.find k
  | _, _ => none

/-- Optional chaining `o?.k` on a possibly-`undefined` base. -/
def getFieldO (o : Option Json) (k : String) : Option Json :=
  o.bind (fun j => getField j k)

/-- JavaScript truthiness of a JSON value. -/
def truthy : Json → Bool
  | Json.null => false
  | Json.bool b => b
  | Json.num n => !(n = 0)
  | Json.str s => !(s = "")
  | Json.arr _ => true
  | Json.obj _ => true

/-- Truthiness of a possibly-`undefined` value (`undefined` is falsy). -/
def truthyOpt : Option Json → Bool
  | none => false
  | some j => truthy j

/-- `typeof v === "object"` (true for objects, arrays and `null`). -/
def jsTypeofObject : Json → Bool
  | Json.obj _ => true
  | Json.arr _ => true
  | Json.null => true
  | _ => false

mutual
/-- JavaScript `String(v)` coercion. -/
def jsString : Json → String
  | Json.null => "null"
  | Json.bool true => "true"
  | Json.bool false => "false"
  | Json.num n => toString n
  | Json.str s => s
  | Json.arr xs => jsStringArr xs
  | Json.obj _ => "[object Object]"

/-- `Array.prototype.toString`: elements joined with `","`, with `null`
elements rendered empty. -/
def jsStringArr : JsonList → String
  | JsonList.nil => ""
  | JsonList.cons x JsonList.nil =>
      (match x with | Json.null => "" | _ => jsString x)
  | JsonList.cons x (JsonList.cons y rest) =>
      (match x with | Json.null => "" | _ => jsString x) ++ "," ++ jsStringArr (JsonList.cons y rest)
end

/-- `String(x || "")` for a possibly-missing field value `x`. -/
def jsStrOf (o : Option Json) : String :=
  match o with
  | none => ""
  | some v => if truthy v then jsString v else ""

/-- `String(x || d)` for a possibly-missing field value `x` and a string
default `d`. -/
def jsStrOr (o : Option Json) (d : String) : String :=
  match o with
  | none => d
  | some v => if truthy v then jsString v else d

/-- JavaScript `a || b` on possibly-missing field values. -/
def jsOrJ (a b : Option Json) : Option Json :=
  if truthyOpt a then a else b

/-! ### Streaming prompt client (`LibraryCaptureService.sendPrompt`, streaming branch)

The callback invocations performed while scanning one streamed frame are
modelled as an emitted list of `StreamEvent`s, in invocation order.
`JSON.parse` is the oracle argument `parse` (`none` models a parse
exception, which the source swallows). -/

inductive StreamEvent where
  | convId (id : String)
  | metadataEvent (payload : Json)
  | chunk (text : String)

/-- The ten `type` names routed to the metadata-event callback. -/
def recognizedMetaTypes : List String :=
  ["project_scope_suggested", "project_scope_selected", "tooling_state",
   "tool_call", "tool_result", "auto_continue", "approval_request",
   "approval_required", "approval_resolution", "orchestration_context_error"]

/-- `parsed && typeof parsed === "object" && typeof parsed.type === "string"`
and the ten-way disjunction on `parsed.type`. -/
def isRecognizedMeta (j : Json) : Bool :=
  match getField j "type" with
  | some (Json.str t) => recognizedMetaTypes.contains t
  | _ => false

/-- `!options.conversationId` for `conversationId : string | null`. -/
def jsStrFalsy : Option String → Bool
  | none => true
  | some s => s = ""

/-- `if (parsed?.conversation_id && !options.conversationId)
options.onConversationId(String(parsed.conversation_id))`. -/
def convIdEvents (conv : Option String) (parsed : Json) : List StreamEvent :=
  if truthyOpt (getField parsed "conversation_id") && jsStrFalsy conv then
    [StreamEvent.convId (jsString ((getField parsed "conversation_id").getD Json.null))]
  else []

/-- The `choices[0]` probe of `extractTextFromData`
(`delta.content`, then `message.content`, then `text`). -/
def extractFromChoiceFirst (c : Json) : Option String :=
  let dc := getFieldO (getField c "delta") "content"
  if truthyOpt dc then some (jsString (dc.getD Json.null))
  else
    let mc := getFieldO (getField c "message") "content"
    if truthyOpt mc then some (jsString (mc.getD Json.null))
    else
      let tx := getField c "text"
      if truthyOpt tx then some (jsString (tx.getD Json.null)) else none

/-- `Array.isArray(data.choices) && data.choices.length > 0` guard. -/
def extractFromChoices (data : Json) : Option String :=
  match getField data "choices" with
  | some (Json.arr (JsonList.cons c _)) => extractFromChoiceFirst c
  | _ => none

/-- The ordered field probe of `extractTextFromData`. -/
def namedExtractFields : List String :=
  ["content", "message", "response", "output", "result", "answer"]

def extractFromNamedFields (data : Json) : List String → Option String
  | [] => none
  | f :: rest =>
    match getField data f with
    | some (Json.str s) => some s
    | other =>
      match getFieldO other "content" with
      | some (Json.str s) => some s
      | _ => extractFromNamedFields data rest

/-- `extractTextFromData` from `libraryCaptureService.ts`. -/
def extractTextFromData (data : Json) : String :=
  if truthy data = false then ""
  else
    match data with
    | Json.str s => s
    | Json.arr _ | Json.obj _ =>
      match getField data "text" with
      | some (Json.str s) => s
      | _ =>
        match extractFromChoices data with
        | some s => s
        | none =>
          match extractFromNamedFields data namedExtractFields with
          | some s => s
          | none =>
            match getFieldO (getField data "delta") "content" with
            | some (Json.str s) => s
            | _ => ""
    | _ => ""

/-- The per-record dispatch inside the streaming `try` block: conversation-id
callback first, then either the metadata-event callback (recognized `type`,
with `continue`) or the chunk callback on a non-empty extracted text. -/
def dispatchParsed (conv : Option String) (parsed : Json) : List StreamEvent :=
  convIdEvents conv parsed ++
    (if isRecognizedMeta parsed then [StreamEvent.metadataEvent parsed]
     else
       let text := extractTextFromData parsed
       if text = "" then [] else [StreamEvent.chunk text])

/-- `needle` is a leading run of `hay` (JavaScript `hay.startsWith(needle)`). -/
def leadsWith : List Char → List Char → Bool
  | [], _ => true
  | _ :: _, [] => false
  | a :: xs, b :: ys => a = b && leadsWith xs ys

/-- `line.startsWith("data: ") ? line.slice(6) : line`. -/
def stripDataTag (line : String) : String :=
  if leadsWith "data: ".data line.data then String.mk (line.data.drop 6) else line

/-- Processing of one newline-delimited record of a streamed frame. -/
def processLine (parse : String → Option Json) (conv : Option String) (line : String) :
    List StreamEvent :=
  let payloadLine := stripDataTag line
  if payloadLine = "" || payloadLine = "[DONE]" then []
  else
    match parse payloadLine with
    | none => []
    | some parsed => dispatchParsed conv parsed

def processRecords (parse : String → Option Json) (conv : Option String)
    (records : List String) : List StreamEvent :=
  records.flatMap (processLine parse conv)

/-- JavaScript `content.split("\n")`. -/
def splitNl : List Char → List (List Char)
  | [] => [[]]
  | c :: rest =>
    if c = '\n' then [] :: splitNl rest
    else
      match splitNl rest with
      | [] => [[c]]
      | h :: t => (c :: h) :: t

def splitLines (s : String) : List String :=
  (splitNl s.data).map String.mk

/-- `line.trim().length > 0`. -/
def isNonBlank (s : String) : Bool :=
  decide (0 < (trimList s.data).length)

/-- One streamed frame: split on newlines, keep non-blank records, process
each in order. -/
def processChunk (parse : String → Option Json) (conv : Option String)
    (content : String) : List StreamEvent :=
  processRecords parse conv ((splitLines content).filter isNonBlank)

/-- Number of conversation-id callback invocations in an event trace. -/
def convIdCount (events : List StreamEvent) : Nat :=
  events.countP (fun e => match e with | StreamEvent.convId _ => true | _ => false)

/-- A record that survives the `[DONE]`/blank filter, parses, and carries a
truthy `conversation_id`. -/
def recordCarriesConvId (parse : String → Option Json) (r : String) : Bool :=
  let p := stripDataTag r
  if p = "" || p = "[DONE]" then false
  else
    match parse p with
    | some j => truthyOpt (getField j "conversation_id")
    | none => false

/-! ### Single-shot prompt branch (`LibraryCaptureService.sendPrompt`, non-streaming) -/

/-- JavaScript property assignment `o[k] = v` on an object's field list:
overwrite in place when the key exists, append otherwise. -/
def JsonFields.set : JsonFields → String → Json → JsonFields
  | JsonFields.nil, k, v => JsonFields.cons k v JsonFields.nil
  | JsonFields.cons key val rest, k, v =>
    if key = k then JsonFields.cons key v rest
    else JsonFields.cons key val (rest.set k v)

def foldSetFields : JsonFields → JsonFields → JsonFields
  | base, JsonFields.nil => base
  | base, JsonFields.cons k v rest => foldSetFields (base.set k v) rest

def JsonList.indexFields : Nat → JsonList → JsonFields
  | _, JsonList.nil => JsonFields.nil
  | i, JsonList.cons x rest => JsonFields.cons (toString i) x (JsonList.indexFields (i + 1) rest)

def charIndexFields : Nat → List Char → JsonFields
  | _, [] => JsonFields.nil
  | i, c :: rest => JsonFields.cons (toString i) (Json.str (String.mk [c])) (charIndexFields (i + 1) rest)

/-- The own-enumerable entries contributed by an object spread `...v`
(objects spread their fields, arrays and strings their index properties,
primitives nothing). -/
def jsSpreadEntries : Json → JsonFields
  | Json.obj fs => fs
  | Json.arr xs => JsonList.indexFields 0 xs
  | Json.str s => charIndexFields 0 s.data
  | _ => JsonFields.nil

/-- The synthesized metadata events of the single-shot branch, e.g.
`onMetadataEvent(\x7b type: "tooling_state", ...payload.tooling_state \x7d)`. -/
def mkSpreadEvent (typeName : String) (payload : Json) : Json :=
  Json.obj (foldSetFields (JsonFields.cons "type" (Json.str typeName) JsonFields.nil)
    (jsSpreadEntries payload))

structure SingleShotResult where
  events : List StreamEvent
  throwsNoText : Bool

/-- The single-shot (non-streaming) response handling of
`LibraryCaptureService.sendPrompt`: conversation-id callback, synthesized
`tooling_state` / `approval_required` / `approval_resolution` metadata
events, chunk callback on extracted text, and the trailing
`"No response text received."` throw condition. -/
def singleShotDispatch (conv : Option String) (payload : Json) : SingleShotResult :=
  let convE := convIdEvents conv payload
  let toolingE :=
    if truthyOpt (getField payload "tooling_state") then
      [StreamEvent.metadataEvent
        (mkSpreadEvent "tooling_state" ((getField payload "tooling_state").getD Json.null))]
    else []
  let apReqE :=
    if truthyOpt (getField payload "approval_required") &&
        truthyOpt (getField payload "approval_request") then
      [StreamEvent.metadataEvent
        (Json.obj (JsonFields.cons "type" (Json.str "approval_required")
          (JsonFields.cons "approval_request"
            ((getField payload "approval_request").getD Json.null) JsonFields.nil)))]
    else []
  let apResE :=
    if truthyOpt (getField payload "approval_resolution") then
      [StreamEvent.metadataEvent
        (mkSpreadEvent "approval_resolution"
          ((getField payload "approval_resolution").getD Json.null))]
    else []
  let text := extractTextFromData payload
  let chunkE := if text = "" then [] else [StreamEvent.chunk text]
  { events := convE ++ toolingE ++ apReqE ++ apResE ++ chunkE
    throwsNoText := (text = "") &&
      !truthyOpt (getField payload "approval_required") &&
      !truthyOpt (getField payload "approval_resolution") }

/-! ### Request payload construction (`LibraryCaptureService.sendPrompt`) -/

/-- `ModelInfo` from `types.ts`. -/
structure ModelInfo where
  name : String
  provider : String
  providerId : String
  serverName : String
  serverId : String
  isTemporary : Option Bool := none
  deriving DecidableEq

/-- `String(options.prompt || "").trim() || "Continue."`. -/
def effectivePrompt (prompt : String) : String :=
  let t := jsTrim prompt
  if t = "" then "Continue." else t

/-- The chat request payload assembled by the service (the fields whose
values depend on the call; the fixed generation parameters and the
MCP envelope are carried separately by the orchestrator model below). -/
structure ChatRequest where
  provider : String
  settingsId : String
  serverId : String
  model : String
  messageRole : String
  messageContent : String
  stream : Bool
  userId : String
  conversationId : Option String
  conversationType : String
  deriving DecidableEq

/-- The `requestPayload` record literal of `sendPrompt`: built and posted
unconditionally — the service never rejects a blank prompt, it substitutes
`"Continue."`. -/
def buildChatRequest (prompt : String) (selectedModel : ModelInfo)
    (conversationId : Option String) (conversationType : String)
    (useStreaming : Bool) (currentUserId : Option String) : ChatRequest :=
  { provider := selectedModel.provider
    settingsId := selectedModel.providerId
    serverId := selectedModel.serverId
    model := selectedModel.name
    messageRole := "user"
    messageContent := effectivePrompt prompt
    stream := useStreaming
    userId :=
      match currentUserId with
      | some u => if u = "" then "current" else u
      | none => "current"
    conversationId := conversationId
    conversationType := conversationType }

def modelFixture : ModelInfo :=
  { name := "llama3", provider := "ollama", providerId := "ollama_servers_settings",
    serverName := "Local", serverId := "s1" }

/-! ### Transcript upload (`LibraryCapture.handleTranscriptSelected`) -/

/-- `s.slice(0, n)`. -/
def jsSlice0 (s : String) (n : Nat) : String :=
  String.mk (s.data.take n)

def truncationMarker : String := "\n\n[TRUNCATED]"

/-- `text.length > 12000 ? text.slice(0, 12000) + marker : text`, applied to
the trimmed extracted text; `none` models the
`"No transcript text was extracted..."` throw on empty text. -/
def transcriptText (extracted : String) : Option String :=
  let text := jsTrim extracted
  if text = "" then none
  else some (if 12000 < text.length then jsSlice0 text 12000 ++ truncationMarker else text)

/-- The fixed lines of the synthesized transcript prompt, up to and
including `"Transcript content:"` and its joining newline
(the source builds the prompt with `[...].join("\n")`). -/
def transcriptHeader (fileName dateIso source : String) (scopePath : Option String) : String :=
  "Capture transcript ingestion request." ++ "\n" ++
  "Use ingest_transcript to save this transcript in transcripts/YYYY-MM and update transcripts/index.md." ++ "\n" ++
  "Require explicit approval before executing the write." ++ "\n" ++
  "filename: " ++ fileName ++ "\n" ++
  "date: " ++ dateIso ++ "\n" ++
  "source: " ++ source ++ "\n" ++
  (if jsStrFalsy scopePath then "project: capture" else "project: " ++ scopePath.getD "") ++ "\n" ++
  "" ++ "\n" ++
  "Transcript content:" ++ "\n"

/-- The synthesized transcript-ingestion prompt, or `none` when the upload
fails because extraction yielded empty (after trim) text. -/
def transcriptPrompt (extracted fileName dateIso source : String)
    (scopePath : Option String) : Option String :=
  match transcriptText extracted with
  | none => none
  | some t => some (transcriptHeader fileName dateIso source scopePath ++ t)

/-! ### Configured model default resolution (`LibraryCapture`) -/

/-- The default-model configuration props (camelCase and snake_case pairs),
`string | null | undefined` each. -/
structure CaptureModelProps where
  defaultModelKey : Option String := none
  default_model_key : Option String := none
  defaultModelProvider : Option String := none
  default_model_provider : Option String := none
  defaultModelServerId : Option String := none
  default_model_server_id : Option String := none
  defaultModelName : Option String := none
  default_model_name : Option String := none
  deriving DecidableEq

/-- `getConfiguredStringValue`: trimmed primary if non-empty, else trimmed
fallback (non-strings contribute `""`). -/
def getConfiguredStringValue (primary fallback : Option String) : String :=
  let np := match primary with | some s => jsTrim s | none => ""
  if np ≠ "" then np
  else match fallback with | some s => jsTrim s | none => ""

structure ParsedModelKey where
  provider : String
  serverId : Option String
  modelName : String
  deriving DecidableEq

/-- Index of the first occurrence of `needle` in `hay` (`String.indexOf`). -/
def findSubIdx (hay needle : List Char) : Option Nat :=
  match hay with
  | [] => if leadsWith needle [] then some 0 else none
  | c :: rest =>
    if leadsWith needle (c :: rest) then some 0
    else (findSubIdx rest needle).map (· + 1)

/-- `s.indexOf(needle, start)` (`none` models `-1`). -/
def jsIndexOfFrom (s : String) (needle : String) (start : Nat) : Option Nat :=
  (findSubIdx (s.data.drop start) needle.data).map (· + start)

/-- `s.slice(a, b)` for `0 ≤ a ≤ b` (the only shapes used by the source). -/
def jsSlice (s : String) (a b : Nat) : String :=
  String.mk ((s.data.drop a).take (b - a))

/-- `s.slice(a)`. -/
def jsSliceFrom (s : String) (a : Nat) : String :=
  String.mk (s.data.drop a)

/-- `parseConfiguredDefaultModelKey`: first try the composite
`provider::serverId::modelName` key, then the separate provider/server/name
props (`serverId` optional there). -/
def parseConfiguredDefaultModelKey (cfg : CaptureModelProps) : Option ParsedModelKey :=
  let rawModelKey := getConfiguredStringValue cfg.defaultModelKey cfg.default_model_key
  let fromKey : Option ParsedModelKey :=
    if rawModelKey = "" then none
    else
      match jsIndexOfFrom rawModelKey "::" 0 with
      | none => none
      | some fd =>
        if 0 < fd then
          match jsIndexOfFrom rawModelKey "::" (fd + 2) with
          | none => none
          | some sd =>
            if fd + 2 < sd then
              let provider := jsTrim (jsSlice rawModelKey 0 fd)
              let serverId := jsTrim (jsSlice rawModelKey (fd + 2) sd)
              let modelName := jsTrim (jsSliceFrom rawModelKey (sd + 2))
              if provider ≠ "" && serverId ≠ "" && modelName ≠ "" then
                some { provider := provider, serverId := some serverId, modelName := modelName }
              else none
            else none
        else none
  match fromKey with
  | some k => some k
  | none =>
    let provider := getConfiguredStringValue cfg.defaultModelProvider cfg.default_model_provider
    let modelName := getConfiguredStringValue cfg.defaultModelName cfg.default_model_name
    let serverId := getConfiguredStringValue cfg.defaultModelServerId cfg.default_model_server_id
    if provider = "" || modelName = "" then none
    else
      some { provider := provider,
             serverId := if serverId = "" then none else some serverId,
             modelName := modelName }

/-- The predicate of the `models.find(...)` call in
`applyConfiguredModelDefault`: case-insensitive provider and name match,
plus serverId when one was specified. -/
def modelMatchesKey (k : ParsedModelKey) (m : ModelInfo) : Bool :=
  (jsToLower (jsTrim m.provider) = jsToLower (jsTrim k.provider)) &&
  (jsToLower (jsTrim m.name) = jsToLower (jsTrim k.modelName)) &&
  (match k.serverId with
   | some sid => jsToLower (jsTrim m.serverId) = jsToLower (jsTrim sid)
   | none => true)

/-- `applyConfiguredModelDefault`: the selection written to
`state.selectedModel`, given the loaded catalog and the previous
selection. -/
def applyConfiguredModelDefault (cfg : CaptureModelProps) (models : List ModelInfo)
    (prevSelected : Option ModelInfo) : Option ModelInfo :=
  if models.isEmpty then none
  else
    match parseConfiguredDefaultModelKey cfg with
    | none =>
      (match prevSelected with
       | some m => some m
       | none => models.head?)
    | some k =>
      match models.find? (modelMatchesKey k) with
      | some m => some m
      | none => models.head?

def modelFixtureB : ModelInfo :=
  { name := "qwen", provider := "ollama", providerId := "ollama_servers_settings",
    serverName := "Local", serverId := "s2" }

def cfgKeyFixture : CaptureModelProps :=
  { default_model_key := some "ollama::s1::llama3" }

/-- A 12,345-character extracted transcript text. -/
def longTranscriptFixture : String := String.mk (List.replicate 12345 'a')

/-! ### Capture orchestrator state machine (`LibraryCapture` component)

The orchestrator's React state is modelled by `CaptureState`, restricted to
the fields read or written by the embedded transitions (`theme`, the loading
flags, the model catalog list, the composer text and the default-model
toast fields are never touched by them).  Message ids and timestamps come
from `Date.now`/`Math.random`/`new Date()` and are passed in as oracle
arguments `mid`/`uid`/`aid`/`now`. -/

inductive MsgSender where
  | user : MsgSender
  | ai : MsgSender
  | system : MsgSender
  deriving DecidableEq

/-- `CaptureMessage` from `types.ts` (the two optional flags default to
absent = `false`, the only way the component reads them). -/
structure CaptureMessage where
  id : String
  sender : MsgSender
  content : String
  timestamp : String
  isStreaming : Bool := false
  isError : Bool := false
  deriving DecidableEq

/-- The normalized `MCPApprovalRequest` stored in `pendingApproval`. -/
structure MCPApprovalRequest where
  request_id : Option String := none
  tool : String
  summary : String
  arguments : Option Json := none
  status : String

structure MCPApprovalDecision where
  action : String
  request_id : Option String := none
  tool : Option String := none
  arguments : Option Json := none

/-- `ScopeOption` from `types.ts`. -/
structure ScopeOption where
  name : String
  slug : String
  lifecycle : String
  path : String
  scope_root : Option String := none
  has_agent_md : Bool := false
  has_spec : Bool := false
  has_build_plan : Bool := false
  has_decisions : Bool := false
  deriving DecidableEq

structure CaptureState where
  selectedModel : Option ModelInfo
  scopeOptions : List ScopeOption
  scopeEnabled : Bool
  selectedScopePath : Option String
  conversationId : Option String
  messages : List CaptureMessage
  isSubmitting : Bool
  error : Option String
  pendingApproval : Option MCPApprovalRequest
  activityStatus : Option String

/-- Number of pending approvals held by a state (the `pendingApproval`
field holds zero or one record). -/
def pendingCount (st : CaptureState) : Nat :=
  match st.pendingApproval with
  | some _ => 1
  | none => 0

/-- The `typeof event.type === "string"` guard (`none` also covers
non-object events, which have no `type` property). -/
def eventTypeStr (e : Json) : Option String :=
  match getField e "type" with
  | some (Json.str t) => some t
  | _ => none

/-- `typeof event.request_id === "string" ? event.request_id : ""`. -/
def resolvedRequestId (e : Json) : String :=
  match getField e "request_id" with
  | some (Json.str s) => s
  | _ => ""

def strField (o : Option Json) : Option String :=
  match o with
  | some (Json.str s) => some s
  | _ => none

def defaultApprovalSummary : String :=
  "Approval required before executing mutating tool call."

/-- The `normalizedApproval` record built by the
`approval_request`/`approval_required` branch (the `if (!tool)` fallback to
`"mutating_tool"` folded in). -/
def normalizeApproval (raw : Option Json) : MCPApprovalRequest :=
  let tool0 := jsTrim (jsStrOf (getFieldO raw "tool"))
  { request_id := strField (getFieldO raw "request_id")
    tool := if tool0 = "" then "mutating_tool" else tool0
    summary :=
      (match getFieldO raw "summary" with
       | some (Json.str s) => if jsTrim s = "" then defaultApprovalSummary else jsTrim s
       | _ => defaultApprovalSummary)
    arguments :=
      (match getFieldO raw "arguments" with
       | some v => if truthy v && jsTypeofObject v then some v else none
       | none => none)
    status := "pending" }

/-- The resolution `activityStatus` text (`approved` / `rejected` /
other). -/
def resolutionStatusText (status tool : String) : String :=
  if status = "approved" then "Approved " ++ tool ++ ". Continuing..."
  else if status = "rejected" then "Denied " ++ tool ++ "."
  else "Approval resolved for " ++ tool ++ "."

/-- `LibraryCapture.handleMetadataEvent`. -/
def handleMetadataEvent (st : CaptureState) (mid now : String) (e : Json) : CaptureState :=
  match eventTypeStr e with
  | none => st
  | some t =>
    if t = "tooling_state" then
      let stopReason := jsToLower (jsTrim (jsStrOf (getField e "tool_loop_stop_reason")))
      if stopReason = "approval_required" then
        { st with activityStatus := some "Awaiting approval for a write action..." }
      else if stopReason = "provider_timeout" then
        { st with activityStatus := some "Model response timed out. Retry when ready." }
      else if stopReason = "missing_orchestration_context" then
        { st with activityStatus := some "Missing required scope context for this write." }
      else
        match getField e "tool_loop_enabled" with
        | some (Json.bool true) => { st with activityStatus := some "Planning tool actions..." }
        | _ => st
    else if t = "tool_call" then
      let s0 := jsTrim (jsStrOr (getField e "name") "tool")
      let toolName := if s0 = "" then "tool" else s0
      { st with activityStatus := some ("Running tool: " ++ toolName ++ "...") }
    else if t = "tool_result" then
      let s0 := jsTrim (jsStrOr (getField e "name") "tool")
      let toolName := if s0 = "" then "tool" else s0
      let success := match getField e "ok" with
        | some (Json.bool false) => false
        | _ => true
      let statusText :=
        if success then "Tool completed: " ++ toolName ++ "."
        else "Tool failed: " ++ toolName ++ "."
      { st with activityStatus := some statusText }
    else if t = "auto_continue" then
      let passLabel := jsStrOr (getField e "pass") "next"
      { st with activityStatus := some ("Continuing response (pass " ++ passLabel ++ ")...") }
    else if t = "orchestration_context_error" then
      { st with activityStatus := some "Write is blocked until scope context is ready." }
    else if t = "approval_request" || t = "approval_required" then
      let raw := if t = "approval_required" then getField e "approval_request" else some e
      let na := normalizeApproval raw
      { st with
        pendingApproval := some na
        activityStatus := some ("Awaiting approval for " ++ na.tool ++ "...")
        messages := st.messages ++
          [{ id := mid, sender := MsgSender.system,
             content := "Approval required for tool: " ++ na.tool, timestamp := now }] }
    else if t = "approval_resolution" then
      let status := jsToLower (jsStrOf (getField e "status"))
      let s0 := jsTrim (jsStrOf (getField e "tool"))
      let tool := if s0 = "" then "mutating_tool" else s0
      let content :=
        if status = "approved" then "Approved: " ++ tool
        else if status = "rejected" then "Denied: " ++ tool
        else "Approval resolved for: " ++ tool
      let st1 := { st with messages := st.messages ++
        [{ id := mid, sender := MsgSender.system, content := content, timestamp := now }] }
      match st.pendingApproval with
      | none =>
        { st1 with pendingApproval := none,
                   activityStatus := some (resolutionStatusText status tool) }
      | some p =>
        let pendingId := p.request_id.getD ""
        let resolvedId := resolvedRequestId e
        if pendingId = "" || resolvedId = "" || pendingId = resolvedId then
          { st1 with pendingApproval := none,
                     activityStatus := some (resolutionStatusText status tool) }
        else st1
    else if t = "project_scope_selected" then
      let selectedPath :=
        match getField e "scope_path" with
        | some (Json.str s) => normalizeScopePath s
        | _ => ""
      if selectedPath = "" then st
      else
        match st.scopeOptions.find?
            (fun o => jsToLower (normalizeScopePath o.path) = jsToLower selectedPath) with
        | some m =>
          { st with scopeEnabled := true, selectedScopePath := some selectedPath,
                    activityStatus := some ("Using scope: " ++ m.name ++ ".") }
        | none => st
    else st

/-- The configured props read by the send path. -/
structure CaptureProps where
  conversationType : Option String := none
  conversation_type : Option String := none
  enableStreaming : Option Bool := none
  enable_streaming : Option Bool := none
  deriving DecidableEq

/-- `getConfiguredBooleanValue`: primary if boolean, else fallback if
boolean, else `undefined`. -/
def getConfiguredBooleanValue (primary fallback : Option Bool) : Option Bool :=
  match primary with
  | some b => some b
  | none => fallback

def getEffectiveConversationType (props : CaptureProps) : String :=
  let s := getConfiguredStringValue props.conversationType props.conversation_type
  if s = "" then "capture" else s

/-- `MCPRequestParams` as built by `buildMcpParams`. -/
structure MCPRequestParams where
  mcp_tools_enabled : Bool
  mcp_scope_mode : String
  mcp_project_slug : Option String
  mcp_project_name : Option String
  mcp_project_lifecycle : String
  mcp_project_source : String
  mcp_plugin_slug : String
  mcp_approval : Option MCPApprovalDecision := none

/-- `getSelectedScopeOption` (a falsy — null or empty — selected path
yields no option). -/
def getSelectedScopeOption (st : CaptureState) : Option ScopeOption :=
  match st.selectedScopePath with
  | none => none
  | some sp =>
    if sp = "" then none
    else st.scopeOptions.find?
      (fun o => jsToLower (normalizeScopePath o.path) = jsToLower sp)

/-- `buildMcpParams`. -/
def buildMcpParams (st : CaptureState) (approvalDecision : Option MCPApprovalDecision) :
    MCPRequestParams :=
  let selectedScope := if st.scopeEnabled then getSelectedScopeOption st else none
  let selectedScopePath :=
    match selectedScope with
    | some sc => some (normalizeScopePath sc.path)
    | none => none
  let pathTruthy := match selectedScopePath with | some s => !(s = "") | none => false
  { mcp_tools_enabled := true
    mcp_scope_mode := if pathTruthy then "project" else "none"
    mcp_project_slug := if pathTruthy then selectedScopePath else none
    mcp_project_name := (match selectedScope with | some sc => some sc.name | none => none)
    mcp_project_lifecycle :=
      (match selectedScope with
       | some sc => if sc.lifecycle = "" then "active" else sc.lifecycle
       | none => "active")
    mcp_project_source := "ui"
    mcp_plugin_slug := "BrainDriveLibraryPlugin"
    mcp_approval := approvalDecision }

/-- The invocation of `captureService.sendPrompt` issued by the
orchestrator (the network side effect). -/
structure CaptureServiceCall where
  prompt : String
  selectedModel : ModelInfo
  conversationId : Option String
  conversationType : String
  useStreaming : Bool
  mcpParams : MCPRequestParams
  approvalDecision : Option MCPApprovalDecision

def noModelError : String := "Select a model before sending capture input."

/-- The synchronous prefix of `LibraryCapture.sendPrompt` (up to and
including the construction of the service call): guard on the selected
model, guard on the blank prompt, append the user message and the empty
streaming assistant placeholder, set `isSubmitting`/clear the error, and
assemble the service-call options.  The second component is the issued
service call; `none` means no network call is made. -/
def sendPromptStep (st : CaptureState) (props : CaptureProps) (uid aid now : String)
    (prompt : String) (userLabel : Option String)
    (approvalDecision : Option MCPApprovalDecision) :
    CaptureState × Option CaptureServiceCall :=
  match st.selectedModel with
  | none => ({ st with error := some noModelError }, none)
  | some selectedModel =>
    let promptToSend := jsTrim prompt
    if promptToSend = "" then (st, none)
    else
      let userContent :=
        match userLabel with
        | some l => if jsTrim l = "" then promptToSend else jsTrim l
        | none => promptToSend
      let userMsg : CaptureMessage :=
        { id := uid, sender := MsgSender.user, content := userContent, timestamp := now }
      let aiMsg : CaptureMessage :=
        { id := aid, sender := MsgSender.ai, content := "", timestamp := now,
          isStreaming := true }
      let st1 :=
        { st with
          messages := st.messages ++ [userMsg, aiMsg]
          isSubmitting := true
          error := none
          activityStatus := some "Thinking..." }
      let call : CaptureServiceCall :=
        { prompt := promptToSend
          selectedModel := selectedModel
          conversationId := st.conversationId
          conversationType := getEffectiveConversationType props
          useStreaming :=
            !(getConfiguredBooleanValue props.enableStreaming props.enable_streaming
              = some false)
          mcpParams := buildMcpParams st approvalDecision
          approvalDecision := approvalDecision }
      (st1, some call)

/-- A state with no selected model (and empty logs). -/
def emptyCaptureState : CaptureState :=
  { selectedModel := none, scopeOptions := [], scopeEnabled := false,
    selectedScopePath := none, conversationId := none, messages := [],
    isSubmitting := false, error := none, pendingApproval := none,
    activityStatus := none }

/-- A state holding a pending approval with request id `"r1"`. -/
def approvalStateFixture : CaptureState :=
  { emptyCaptureState with
    pendingApproval := some
      { request_id := some "r1", tool := "write_file", summary := "s",
        status := "pending" } }

/-- An `approval_resolution` event carrying no `request_id`. -/
def resolutionEventFixture : Json :=
  Json.obj (JsonFields.cons "type" (Json.str "approval_resolution") JsonFields.nil)

/-! ### Page default-model writer (`LibraryPageDefaultsService`)

`saveCaptureDefaultModelForPage` reads the page document, parses its
`content` JSON and patches every matching module definition and layout
item.  The page fetch and update are transport; the embedded function maps
the parsed page content to either a thrown error or the updated content
plus the `updated_targets` count (a `success` outcome is exactly an issued
`api.put` page update). -/

/-- `normalizeToken`: `String(value || "").trim().toLowerCase()`. -/
def normalizeTok (o : Option Json) : String :=
  jsToLower (jsTrim (jsStrOf o))

def strJ (s : String) : Option Json := some (Json.str s)

def isLowerAlnum (c : Char) : Bool :=
  ('a' ≤ c && c ≤ 'z') || ('0' ≤ c && c ≤ '9')

/-- `compactToken`: `normalizeToken(value).replace(/[^a-z0-9]+/g, "")`. -/
def compactTok (o : Option Json) : String :=
  String.mk ((normalizeTok o).data.filter isLowerAlnum)

/-- JavaScript `hay.includes(sub)`. -/
def containsSub (hay sub : List Char) : Bool :=
  (findSubIdx hay sub).isSome

/-- `looksLikeCaptureToken`: the compact token contains
`"librarycapture"`. -/
def looksLikeCaptureToken (o : Option Json) : Bool :=
  containsSub (compactTok o).data "librarycapture".data

/-- `isLibraryPluginToken` applied to an (already normalized) token
string. -/
def isLibraryPluginTokenS (s : String) : Bool :=
  normalizeTok (strJ s) = normalizeTok (strJ "BrainDriveLibraryPlugin")

/-- `requestedModuleMatches`: exact token equality or compact
containment either way across the candidate id/name fields. -/
def requestedModuleMatches (requestedModuleId : String)
    (candidates : List (Option Json)) : Bool :=
  let requestedToken := normalizeTok (strJ requestedModuleId)
  if requestedToken = "" then false
  else
    let requestedCompact := compactTok (strJ requestedToken)
    candidates.any (fun candidate =>
      let token := normalizeTok candidate
      if token = "" then false
      else if token = requestedToken then true
      else
        let compact := compactTok (strJ token)
        if compact = "" || requestedCompact = "" then false
        else
          (compact = requestedCompact) ||
          containsSub compact.data requestedCompact.data ||
          containsSub requestedCompact.data compact.data)

/-- The `config`/`args` sub-object guard
`x && typeof x === "object" ? x : \x7b\x7d`. -/
def objOrEmpty (o : Option Json) : Json :=
  match o with
  | some v => if truthy v && jsTypeofObject v then v else Json.obj JsonFields.nil
  | none => Json.obj JsonFields.nil

/-- `moduleDefinitionMatchesCaptureTarget`. -/
def moduleDefinitionMatchesCaptureTarget (moduleKey : String) (moduleDef : Json)
    (requestedModuleId : String) : Bool :=
  let config := objOrEmpty (getField moduleDef "config")
  let moduleIdToken :=
    normalizeTok (jsOrJ (getField moduleDef "moduleId") (getField config "moduleId"))
  let moduleNameToken :=
    normalizeTok (jsOrJ (getField moduleDef "moduleName")
      (jsOrJ (getField config "moduleName") (getField config "displayName")))
  let pluginToken :=
    normalizeTok (jsOrJ (getField moduleDef "pluginId")
      (jsOrJ (getField moduleDef "pluginSlug")
        (jsOrJ (getField moduleDef "plugin_id")
          (jsOrJ (getField config "pluginId")
            (jsOrJ (getField config "pluginSlug") (getField config "plugin_id"))))))
  let looksLikeCaptureModule :=
    looksLikeCaptureToken (strJ moduleIdToken) ||
    looksLikeCaptureToken (strJ moduleNameToken) ||
    looksLikeCaptureToken (strJ moduleKey)
  if requestedModuleId ≠ "" &&
      requestedModuleMatches requestedModuleId
        [strJ moduleKey, getField moduleDef "moduleId", getField moduleDef "moduleName",
         getField config "moduleId", getField config "moduleName"] then true
  else if requestedModuleId ≠ "" &&
      !looksLikeCaptureToken (strJ requestedModuleId) &&
      !(normalizeTok (strJ requestedModuleId) = normalizeTok (strJ "LibraryCapture")) then
    false
  else if !isLibraryPluginTokenS pluginToken && !looksLikeCaptureModule then false
  else
    (moduleIdToken = normalizeTok (strJ "LibraryCapture")) ||
    (moduleNameToken = normalizeTok (strJ "LibraryCapture")) ||
    looksLikeCaptureModule

/-- `layoutItemMatchesCaptureTarget`. -/
def layoutItemMatchesCaptureTarget (layoutItem : Json) (requestedModuleId : String) : Bool :=
  let args := objOrEmpty (getField layoutItem "args")
  let argsModuleId := normalizeTok (getField args "moduleId")
  let argsModuleName := normalizeTok (getField args "moduleName")
  let argsDisplayName := normalizeTok (getField args "displayName")
  let layoutItemId :=
    normalizeTok (jsOrJ (getField layoutItem "i") (getField layoutItem "moduleUniqueId"))
  let pluginToken :=
    normalizeTok (jsOrJ (getField layoutItem "pluginId")
      (jsOrJ (getField args "pluginId")
        (jsOrJ (getField args "pluginSlug") (getField args "plugin_id"))))
  let looksLikeCaptureLayout :=
    (argsDisplayName = "library capture") ||
    looksLikeCaptureToken (strJ argsModuleId) ||
    looksLikeCaptureToken (strJ argsModuleName) ||
    looksLikeCaptureToken (strJ layoutItemId)
  if requestedModuleId ≠ "" &&
      requestedModuleMatches requestedModuleId
        [getField args "moduleId", getField args "moduleName",
         getField layoutItem "i", getField layoutItem "moduleUniqueId"] then true
  else if requestedModuleId ≠ "" &&
      !looksLikeCaptureToken (strJ requestedModuleId) &&
      !(normalizeTok (strJ requestedModuleId) = normalizeTok (strJ "LibraryCapture")) then
    false
  else if !isLibraryPluginTokenS pluginToken && !looksLikeCaptureLayout then false
  else
    (argsModuleId = normalizeTok (strJ "LibraryCapture")) ||
    (argsModuleName = normalizeTok (strJ "LibraryCapture")) ||
    looksLikeCaptureLayout

/-- `JsonFields.set` on a whole value (property assignment; a named
property cannot be attached to a non-object value in this model). -/
def setJField (j : Json) (k : String) (v : Json) : Json :=
  match j with
  | Json.obj fs => Json.obj (fs.set k v)
  | other => other

def JsonFields.mapVals (p : String → Json → Json) : JsonFields → JsonFields
  | JsonFields.nil => JsonFields.nil
  | JsonFields.cons k v rest => JsonFields.cons k (p k v) (rest.mapVals p)

def JsonFields.countKV (p : String → Json → Bool) : JsonFields → Nat
  | JsonFields.nil => 0
  | JsonFields.cons k v rest => (if p k v then 1 else 0) + rest.countKV p

def JsonList.mapIdx (p : String → Json → Json) : Nat → JsonList → JsonList
  | _, JsonList.nil => JsonList.nil
  | i, JsonList.cons x rest => JsonList.cons (p (toString i) x) (JsonList.mapIdx p (i + 1) rest)

def JsonList.countIdx (p : String → Json → Bool) : Nat → JsonList → Nat
  | _, JsonList.nil => 0
  | i, JsonList.cons x rest =>
    (if p (toString i) x then 1 else 0) + JsonList.countIdx p (i + 1) rest

def JsonList.mapAll (p : Json → Json) : JsonList → JsonList
  | JsonList.nil => JsonList.nil
  | JsonList.cons x rest => JsonList.cons (p x) (rest.mapAll p)

def JsonList.countAll (p : Json → Bool) : JsonList → Nat
  | JsonList.nil => 0
  | JsonList.cons x rest => (if p x then 1 else 0) + rest.countAll p

def JsonFields.sumVals (p : Json → Nat) : JsonFields → Nat
  | JsonFields.nil => 0
  | JsonFields.cons _ v rest => p v + rest.sumVals p

def JsonList.sumAll (p : Json → Nat) : JsonList → Nat
  | JsonList.nil => 0
  | JsonList.cons x rest => p x + rest.sumAll p

/-- A module-map entry selected by the loop (`typeof === "object"`, truthy,
and matching the capture target). -/
def moduleEntryMatches (requested : String) (moduleKey : String) (v : Json) : Bool :=
  truthy v && jsTypeofObject v &&
    moduleDefinitionMatchesCaptureTarget moduleKey v requested

/-- The mutation applied to one module-map entry:
`moduleDefinition.config = \x7b ...existingConfig, ...modelConfig \x7d`. -/
def updModule (cfg : JsonFields) (requested : String) (moduleKey : String) (v : Json) : Json :=
  if moduleEntryMatches requested moduleKey v then
    setJField v "config"
      (Json.obj (foldSetFields (jsSpreadEntries (objOrEmpty (getField v "config"))) cfg))
  else v

def layoutItemMatchesEntry (requested : String) (item : Json) : Bool :=
  truthy item && jsTypeofObject item && layoutItemMatchesCaptureTarget item requested

/-- The mutation applied to one layout item:
`layoutItem.args = \x7b ...existingArgs, ...modelConfig \x7d`. -/
def updLayoutItem (cfg : JsonFields) (requested : String) (item : Json) : Json :=
  if layoutItemMatchesEntry requested item then
    setJField item "args"
      (Json.obj (foldSetFields (jsSpreadEntries (objOrEmpty (getField item "args"))) cfg))
  else item

/-- Layout values that are not arrays are skipped. -/
def updLayoutValue (cfg : JsonFields) (requested : String) (_k : String) (v : Json) : Json :=
  match v with
  | Json.arr xs => Json.arr (xs.mapAll (updLayoutItem cfg requested))
  | other => other

def layoutValueCount (requested : String) (v : Json) : Nat :=
  match v with
  | Json.arr xs => xs.countAll (layoutItemMatchesEntry requested)
  | _ => 0

/-- Matched-target count over `content.modules` (the count accumulated by
`applyDefaultModelToModules`; `Object.entries` of an array yields its
index-keyed elements). -/
def moduleCountOf (o : Option Json) (requested : String) : Nat :=
  match o with
  | some m =>
    if truthy m && jsTypeofObject m then
      (match m with
       | Json.obj fs => fs.countKV (moduleEntryMatches requested)
       | Json.arr xs => JsonList.countIdx (moduleEntryMatches requested) 0 xs
       | _ => 0)
    else 0
  | none => 0

def moduleTargetCount (content : Json) (requested : String) : Nat :=
  moduleCountOf (getField content "modules") requested

/-- Matched-target count over `content.layouts`
(`Object.values`, arrays only). -/
def layoutCountOf (o : Option Json) (requested : String) : Nat :=
  match o with
  | some m =>
    if truthy m && jsTypeofObject m then
      (match m with
       | Json.obj fs => fs.sumVals (layoutValueCount requested)
       | Json.arr xs => xs.sumAll (layoutValueCount requested)
       | _ => 0)
    else 0
  | none => 0

def layoutTargetCount (content : Json) (requested : String) : Nat :=
  layoutCountOf (getField content "layouts") requested

/-- The in-place mutation of `content.modules`. -/
def moduleMutate (content : Json) (cfg : JsonFields) (requested : String) : Json :=
  match getField content "modules" with
  | some m =>
    if truthy m && jsTypeofObject m then
      (match m with
       | Json.obj fs =>
         setJField content "modules" (Json.obj (fs.mapVals (updModule cfg requested)))
       | Json.arr xs =>
         setJField content "modules" (Json.arr (JsonList.mapIdx (updModule cfg requested) 0 xs))
       | _ => content)
    else content
  | none => content

/-- The in-place mutation of `content.layouts`. -/
def layoutMutate (content : Json) (cfg : JsonFields) (requested : String) : Json :=
  match getField content "layouts" with
  | some m =>
    if truthy m && jsTypeofObject m then
      (match m with
       | Json.obj fs =>
         setJField content "layouts" (Json.obj (fs.mapVals (updLayoutValue cfg requested)))
       | Json.arr xs =>
         setJField content "layouts"
           (Json.arr (xs.mapAll (fun v => updLayoutValue cfg requested "" v)))
       | _ => content)
    else content
  | none => content

/-- `applyDefaultModelToModules`: the single source loop both mutates the
matching entries and counts them; it is presented here as the pair of the
mutation and the count of the same entries under the same predicate. -/
def applyDefaultModelToModules (content : Json) (cfg : JsonFields) (requested : String) :
    Json × Nat :=
  (moduleMutate content cfg requested, moduleTargetCount content requested)

/-- `applyDefaultModelToLayouts`, same presentation. -/
def applyDefaultModelToLayouts (content : Json) (cfg : JsonFields) (requested : String) :
    Json × Nat :=
  (layoutMutate content cfg requested, layoutTargetCount content requested)

/-- `buildDefaultModelConfig` (`none` models its throw on a model missing
provider, server or name). -/
def buildDefaultModelConfig (model : ModelInfo) : Option JsonFields :=
  let provider := jsTrim model.provider
  let serverId := jsTrim model.serverId
  let modelName := jsTrim model.name
  if provider = "" || serverId = "" || modelName = "" then none
  else
    some
      (JsonFields.cons "default_model_key"
        (Json.str (provider ++ "::" ++ serverId ++ "::" ++ modelName))
      (JsonFields.cons "default_model_provider" (Json.str provider)
      (JsonFields.cons "default_model_server_id" (Json.str serverId)
      (JsonFields.cons "default_model_name" (Json.str modelName)
      (JsonFields.cons "default_model_provider_id" (Json.str (jsTrim model.providerId))
      (JsonFields.cons "default_model_server_name" (Json.str (jsTrim model.serverName))
        JsonFields.nil))))))

/-- `normalizePageId`: trim, then delete every dash (the global dash
replace of the source). -/
def normalizePageId (pageId : String) : String :=
  String.mk ((trimList pageId.data).filter (fun c => !(c = '-')))

/-- `normalizeToken(options.moduleId || "")`. -/
def requestedIdOf (moduleId : Option String) : String :=
  normalizeTok (strJ (moduleId.getD ""))

/-- `parsed && typeof parsed === "object"` (the `parsePageContent`
validity check). -/
def isObjLike (j : Json) : Bool :=
  truthy j && jsTypeofObject j

inductive SaveOutcome where
  | throwsMsg (msg : String)
  | success (content : Json) (updatedTargets : Nat)

def locateErrorMsg : String :=
  "Could not locate Library Capture module config for this page."

/-- `saveCaptureDefaultModelForPage` on the parsed page content: a
`throwsMsg` outcome raises before any page update is issued, a `success`
outcome issues exactly one `api.put` with the mutated content and returns
`updated_targets`. -/
def saveCaptureDefaultModelForPage (pageId : String) (moduleId : Option String)
    (model : ModelInfo) (parsedContent : Json) : SaveOutcome :=
  if normalizePageId pageId = "" then
    SaveOutcome.throwsMsg "Current page ID is unavailable."
  else
    let requested := requestedIdOf moduleId
    match buildDefaultModelConfig model with
    | none =>
      SaveOutcome.throwsMsg "Selected model is missing provider, server, or model name."
    | some cfgFields =>
      if isObjLike parsedContent then
        let r1 := applyDefaultModelToModules parsedContent cfgFields requested
        let r2 := applyDefaultModelToLayouts r1.1 cfgFields requested
        if r1.2 + r2.2 < 1 then SaveOutcome.throwsMsg locateErrorMsg
        else SaveOutcome.success r2.1 (r1.2 + r2.2)
      else SaveOutcome.throwsMsg "Page content is not a valid JSON object."

/-- A page content whose module map holds one capture module. -/
def pageContentFixture : Json :=
  Json.obj (JsonFields.cons "modules"
    (Json.obj (JsonFields.cons "LibraryCapture_1"
      (Json.obj (JsonFields.cons "pluginId" (Json.str "BrainDriveLibraryPlugin")
        (JsonFields.cons "moduleName" (Json.str "LibraryCapture") JsonFields.nil)))
      JsonFields.nil))
    JsonFields.nil)

/-! ### Concrete streaming fixtures (used by counterexamples/witnesses) -/

/-- A streamed record whose JSON payload is an object carrying only a
`conversation_id`. -/
def convRecordA : String := "data: \x7b\"conversation_id\":\"c1\"\x7d"

def convRecordB : String := "data: \x7b\"conversation_id\":\"c2\"\x7d"

def convPayloadA : Json :=
  Json.obj (JsonFields.cons "conversation_id" (Json.str "c1") JsonFields.nil)

def convPayloadB : Json :=
  Json.obj (JsonFields.cons "conversation_id" (Json.str "c2") JsonFields.nil)

/-- A concrete instantiation of the `JSON.parse` oracle, consistent with
JSON semantics on the two fixture payloads. -/
def convStreamParse (s : String) : Option Json :=
  if s = "\x7b\"conversation_id\":\"c1\"\x7d" then some convPayloadA
  else if s = "\x7b\"conversation_id\":\"c2\"\x7d" then some convPayloadB
  else none

def metaFixtureJson : Json :=
  Json.obj (JsonFields.cons "type" (Json.str "tool_call") JsonFields.nil)

def metaFixtureParse (s : String) : Option Json :=
  if s = "\x7b\"type\":\"tool_call\"\x7d" then some metaFixtureJson else none

def metaFixtureLine : String := "data: \x7b\"type\":\"tool_call\"\x7d"

/-! ### Lemmas about the normalization pipeline -/

theorem not_bs_mem_collapseAux : ∀ (l : List Char) (b : Bool), '\\' ∉ collapseBackslashAux b l := by
  intro l
  induction l with
  | nil => intro b; simp [collapseBackslashAux]
  | cons c rest ih =>
    intro b
    by_cases hc : c = '\\'
    · subst hc
      cases b <;> simp [collapseBackslashAux, ih]
    · simp only [collapseBackslashAux, if_neg hc, List.mem_cons]
      rintro (h | h)
      · exact hc h.symm
      · exact ih false h

theorem collapseAux_eq_self : ∀ (l : List Char), '\\' ∉ l → ∀ b, collapseBackslashAux b l = l := by
  intro l
  induction l with
  | nil => intro _ b; rfl
  | cons c rest ih =>
    intro h b
    have hc : ¬ c = '\\' := fun hh => h (hh ▸ List.mem_cons_self c rest)
    have hr : '\\' ∉ rest := fun hm => h (List.mem_cons_of_mem _ hm)
    simp [collapseBackslashAux, hc, ih hr]

theorem dropWhile_eq_self_of_head (p : Char → Bool) (l : List Char)
    (h : ∀ c, l.head? = some c → p c = false) : l.dropWhile p = l := by
  cases l with
  | nil => rfl
  | cons c rest =>
    have := h c rfl
    simp [List.dropWhile, this]

theorem head_dropWhile_false (p : Char → Bool) (l : List Char) (c : Char)
    (h : (l.dropWhile p).head? = some c) : p c = false := by
  have hm := List.head?_dropWhile_not p l
  rw [h] at hm
  exact hm

theorem head?_of_listPre {l₁ l₂ : List Char} (h : l₁ <+: l₂) (c : Char) (hc : l₁.head? = some c) :
    l₂.head? = some c := by
  obtain ⟨t, rfl⟩ := h
  cases l₁ with
  | nil => simp at hc
  | cons a r => simpa using hc

theorem dropTrailingWhile_isPre (p : Char → Bool) (l : List Char) : dropTrailingWhile p l <+: l := by
  have h1 : l.reverse.dropWhile p <:+ l.reverse := List.dropWhile_suffix p
  have h2 := List.reverse_prefix.mpr h1
  simpa [dropTrailingWhile] using h2

theorem mem_of_mem_dropTrailingWhile {p : Char → Bool} {l : List Char} {x : Char}
    (h : x ∈ dropTrailingWhile p l) : x ∈ l :=
  (dropTrailingWhile_isPre p l).subset h

/-- C2, counterexample.  The claim "for every scope path string `p`,
`normalize(normalize(p)) == normalize(p)`" fails on `"/ a /"`:
`trim` runs before the slashes are stripped, so stripping the outer slashes
exposes inner whitespace — `normalize("/ a /") = " a "` while
`normalize(" a ") = "a"`. -/
theorem C2_normalize_not_idempotent_cex :
    normalizeScopePath (normalizeScopePath "/ a /") ≠ normalizeScopePath "/ a /" := by
  decide

/-- C2, amended: scope-path normalization is idempotent on every input
whose normal form carries no leading or trailing JavaScript whitespace
(equivalently, whenever `trim` fixes the normal form); the original claim
fails only when stripping the outer slashes exposes such whitespace. -/
theorem C2_normalizeScopePath_idem_of_trimmed (p : String)
    (h : jsTrim (normalizeScopePath p) = normalizeScopePath p) :
    normalizeScopePath (normalizeScopePath p) = normalizeScopePath p := by
  have ha : trimList (normalizeScopePath p).data = (normalizeScopePath p).data :=
    congrArg String.data h
  set X := collapseBackslash (trimList p.data) with hX
  set M := dropLeadingSlashes X with hM
  set L := dropTrailingSlashes M with hLdef
  have hnp : (normalizeScopePath p).data = L := rfl
  rw [hnp] at ha
  have hnb : '\\' ∉ L := by
    intro hmem
    have h1 : '\\' ∈ M := mem_of_mem_dropTrailingWhile hmem
    have h2 : '\\' ∈ X := (List.dropWhile_suffix _).subset h1
    exact not_bs_mem_collapseAux _ _ h2
  have hb : collapseBackslash L = L := collapseAux_eq_self L hnb false
  have hqM : ∀ c, M.head? = some c → (decide (c = '/')) = false := by
    intro c hc
    exact head_dropWhile_false _ X c hc
  have hLhead : ∀ c, L.head? = some c → (decide (c = '/')) = false := by
    intro c hc
    exact hqM c (head?_of_listPre (dropTrailingWhile_isPre _ M) c hc)
  have hc' : dropLeadingSlashes L = L := dropWhile_eq_self_of_head _ L hLhead
  have hd : dropTrailingSlashes L = L := by
    show dropTrailingWhile _ L = L
    have hrev : L.reverse = M.reverse.dropWhile (fun c => decide (c = '/')) := by
      simp [hLdef, dropTrailingSlashes, dropTrailingWhile]
    unfold dropTrailingWhile
    rw [hrev]
    rw [dropWhile_eq_self_of_head _ _ (fun c hc => head_dropWhile_false _ M.reverse c hc)]
    rw [← hrev, List.reverse_reverse]
  show String.mk (dropTrailingSlashes (dropLeadingSlashes (collapseBackslash (trimList L)))) = _
  rw [ha, hb, hc', hd]
  rw [← hnp]

/-- C2, witness for the amended theorem at the concrete path `"/abc/"`. -/
theorem C2_normalizeScopePath_idem_witness :
    jsTrim (normalizeScopePath "/abc/") = normalizeScopePath "/abc/" ∧
      normalizeScopePath (normalizeScopePath "/abc/") = normalizeScopePath "/abc/" :=
  ⟨by decide, C2_normalizeScopePath_idem_of_trimmed _ (by decide)⟩

/-! ### Streaming dispatch lemmas -/

theorem convIdCount_append (a b : List StreamEvent) :
    convIdCount (a ++ b) = convIdCount a + convIdCount b := by
  simp [convIdCount, List.countP_append]

theorem convIdCount_dispatchParsed (conv : Option String) (j : Json) :
    convIdCount (dispatchParsed conv j) =
      if truthyOpt (getField j "conversation_id") && jsStrFalsy conv then 1 else 0 := by
  unfold dispatchParsed
  rw [convIdCount_append]
  have h2 : convIdCount
      (if isRecognizedMeta j then [StreamEvent.metadataEvent j]
       else
         let text := extractTextFromData j
         if text = "" then [] else [StreamEvent.chunk text]) = 0 := by
    split
    · simp [convIdCount]
    · dsimp only
      split <;> simp [convIdCount]
  rw [h2]
  unfold convIdEvents
  split <;> simp [convIdCount]

theorem convIdCount_processLine (parse : String → Option Json) (conv : Option String)
    (line : String) :
    convIdCount (processLine parse conv line) =
      if jsStrFalsy conv && recordCarriesConvId parse line then 1 else 0 := by
  unfold processLine recordCarriesConvId
  by_cases hc : (stripDataTag line = "" || stripDataTag line = "[DONE]") = true
  · simp [hc, convIdCount]
  · rw [Bool.not_eq_true] at hc
    cases hp : parse (stripDataTag line) with
    | none => simp [hc, hp, convIdCount]
    | some j =>
      simp only [hc, hp, Bool.false_eq_true, if_false]
      rw [convIdCount_dispatchParsed]
      rw [Bool.and_comm]

/-- C1, counterexample.  A streaming call that starts with a null
conversation id and receives two records each carrying a `conversation_id`
invokes the conversation-id callback twice, not exactly once: the service
compares against the immutable `options.conversationId`, which stays null
for the whole call, so the id is never latched within a call. -/
theorem C1_conv_id_not_invoked_once_cex :
    convIdCount (processRecords convStreamParse none [convRecordA, convRecordB]) = 2 ∧
      (2 : Nat) ≠ 1 := by
  constructor
  · decide
  · decide

/-- C1, amended: in a streaming call that starts with a null (or empty)
conversation id, the conversation-id callback fires once for every
processed record whose parsed payload carries a truthy `conversation_id`
(not only the first); in a call that starts with an established non-empty
conversation id, the callback never fires. -/
theorem C1_conv_id_callback_per_record (parse : String → Option Json)
    (conv : Option String) (records : List String) :
    convIdCount (processRecords parse conv records) =
      if jsStrFalsy conv then records.countP (recordCarriesConvId parse) else 0 := by
  induction records with
  | nil =>
    cases hcf : jsStrFalsy conv <;> simp [processRecords, convIdCount, hcf]
  | cons r rest ih =>
    have hsplit : processRecords parse conv (r :: rest) =
        processLine parse conv r ++ processRecords parse conv rest := by
      simp [processRecords]
    rw [hsplit, convIdCount_append, convIdCount_processLine, ih]
    cases hcf : jsStrFalsy conv
    · simp
    · simp only [Bool.true_and, List.countP_cons]
      cases hr : recordCarriesConvId parse r <;> simp [Nat.add_comm]

/-- C4: for every streamed record — (1) a record parsing to an object with
a recognized `type` is delivered to the metadata-event callback and emits
no chunk, (2) a record equal to `[DONE]` after stripping the optional
`data: ` prefix is skipped, (3) a record the parse oracle rejects yields
nothing, and (4) such a malformed record does not abort the processing of
the surrounding records. -/
theorem C4_streaming_record_dispatch (parse : String → Option Json) (conv : Option String) :
    (∀ (line : String) (j : Json), stripDataTag line ≠ "" → stripDataTag line ≠ "[DONE]" →
        parse (stripDataTag line) = some j → isRecognizedMeta j = true →
        processLine parse conv line = convIdEvents conv j ++ [StreamEvent.metadataEvent j] ∧
          ∀ s, StreamEvent.chunk s ∉ processLine parse conv line) ∧
    (∀ line : String, stripDataTag line = "[DONE]" → processLine parse conv line = []) ∧
    (∀ line : String, parse (stripDataTag line) = none → processLine parse conv line = []) ∧
    (∀ (pre post : List String) (bad : String), parse (stripDataTag bad) = none →
        processRecords parse conv (pre ++ bad :: post) =
          processRecords parse conv pre ++ processRecords parse conv post) := by
  have hdrop : ∀ line : String, parse (stripDataTag line) = none →
      processLine parse conv line = [] := by
    intro line hp
    unfold processLine
    by_cases hc : (stripDataTag line = "" || stripDataTag line = "[DONE]") = true
    · simp [hc]
    · simp [hc, hp]
  refine ⟨?_, ?_, hdrop, ?_⟩
  · intro line j h1 h2 hp hm
    have heq : processLine parse conv line =
        convIdEvents conv j ++ [StreamEvent.metadataEvent j] := by
      unfold processLine
      simp [h1, h2, hp, dispatchParsed, hm]
    refine ⟨heq, ?_⟩
    intro s
    rw [heq]
    unfold convIdEvents
    split <;> simp
  · intro line h
    unfold processLine
    simp [h]
  · intro pre post bad hbad
    unfold processRecords
    rw [List.flatMap_append, List.flatMap_cons, hdrop bad hbad]
    simp

/-- C4, witness: the concrete record `data: ...tool_call...` with a parse
oracle consistent with JSON semantics is routed to the metadata-event
callback. -/
theorem C4_streaming_record_dispatch_witness :
    processLine metaFixtureParse none metaFixtureLine =
      convIdEvents none metaFixtureJson ++ [StreamEvent.metadataEvent metaFixtureJson] :=
  ((C4_streaming_record_dispatch metaFixtureParse none).1 metaFixtureLine metaFixtureJson
    (by decide) (by decide) (by rfl) (by rfl)).1

/-- C5: the single-shot branch throws `"No response text received."` exactly
when no text fragment was extracted and the payload carries neither a truthy
`approval_required` nor a truthy `approval_resolution` (field presence is read
as JavaScript truthiness throughout the source); in particular an
approval-only response with no text does not throw. -/
theorem C5_single_shot_throws_iff (conv : Option String) (payload : Json) :
    (singleShotDispatch conv payload).throwsNoText = true ↔
      (extractTextFromData payload = "" ∧
        truthyOpt (getField payload "approval_required") = false ∧
        truthyOpt (getField payload "approval_resolution") = false) := by
  unfold singleShotDispatch
  simp [Bool.and_eq_true, Bool.not_eq_true', decide_eq_true_eq, and_assoc]

/-- C10: a prompt that is empty or whitespace-only still yields a request
payload, whose single user message carries the literal content
`"Continue."`. -/
theorem C10_blank_prompt_sends_continue (prompt : String) (m : ModelInfo)
    (conv : Option String) (ctype : String) (streaming : Bool) (uid : Option String)
    (h : ∀ c ∈ prompt.data, isJsSpace c = true) :
    (buildChatRequest prompt m conv ctype streaming uid).messageContent = "Continue." ∧
      (buildChatRequest prompt m conv ctype streaming uid).messageRole = "user" := by
  have ht : trimList prompt.data = [] := by
    unfold trimList dropTrailingWhile
    rw [List.dropWhile_eq_nil_iff.mpr h]
    rfl
  constructor
  · show effectivePrompt prompt = "Continue."
    unfold effectivePrompt jsTrim
    rw [ht]
    rfl
  · rfl

/-- C10, witness at the whitespace-only prompt `"  "`. -/
theorem C10_blank_prompt_witness :
    (buildChatRequest "  " modelFixture none "capture" true none).messageContent =
      "Continue." :=
  (C10_blank_prompt_sends_continue "  " modelFixture none "capture" true none
    (by decide)).1

/-- C9: transcript text handling — empty (after trim) extracted text fails
the upload; text longer than 12,000 characters contributes exactly its
first 12,000 characters followed by the truncation marker to the
synthesized prompt; shorter text is included unmodified. -/
theorem C9_transcript_truncation (extracted fileName dateIso source : String)
    (scopePath : Option String) :
    (jsTrim extracted = "" →
      transcriptPrompt extracted fileName dateIso source scopePath = none) ∧
    (12000 < (jsTrim extracted).data.length →
      transcriptPrompt extracted fileName dateIso source scopePath =
        some (transcriptHeader fileName dateIso source scopePath ++
          (String.mk ((jsTrim extracted).data.take 12000) ++ truncationMarker))) ∧
    (jsTrim extracted ≠ "" → (jsTrim extracted).data.length ≤ 12000 →
      transcriptPrompt extracted fileName dateIso source scopePath =
        some (transcriptHeader fileName dateIso source scopePath ++ jsTrim extracted)) := by
  refine ⟨?_, ?_, ?_⟩
  · intro h
    have h1 : transcriptText extracted = none := by
      unfold transcriptText
      exact if_pos h
    unfold transcriptPrompt
    rw [h1]
  · intro h
    have hne : jsTrim extracted ≠ "" := by
      intro he
      rw [he] at h
      exact absurd h (by decide)
    have h' : 12000 < (jsTrim extracted).length := h
    have h1 : transcriptText extracted =
        some (jsSlice0 (jsTrim extracted) 12000 ++ truncationMarker) := by
      unfold transcriptText
      rw [if_neg hne, if_pos h']
    unfold transcriptPrompt
    rw [h1]
    rfl
  · intro hne hle
    have hnl : ¬ (12000 < (jsTrim extracted).length) := Nat.not_lt.mpr hle
    have h1 : transcriptText extracted = some (jsTrim extracted) := by
      unfold transcriptText
      rw [if_neg hne, if_neg hnl]
    unfold transcriptPrompt
    rw [h1]

/-- C9, witness at a 12,345-character extracted text. -/
theorem C9_transcript_truncation_witness :
    transcriptPrompt longTranscriptFixture "t.txt" "2026-02-03"
        "capture-upload" none =
      some (transcriptHeader "t.txt" "2026-02-03" "capture-upload" none ++
        (String.mk ((jsTrim longTranscriptFixture).data.take 12000) ++
          truncationMarker)) := by
  have htrim : trimList (List.replicate 12345 'a') = List.replicate 12345 'a' := by
    have hstep : ∀ n : Nat, List.dropWhile isJsSpace (List.replicate n 'a') =
        List.replicate n 'a' := by
      intro n
      apply dropWhile_eq_self_of_head
      intro c hc
      cases n with
      | zero => simp at hc
      | succ m =>
        rw [List.replicate_succ] at hc
        have hac : 'a' = c := Option.some.inj hc
        subst hac
        decide
    unfold trimList dropTrailingWhile
    rw [hstep, List.reverse_replicate, hstep, List.reverse_replicate]
  refine (C9_transcript_truncation longTranscriptFixture "t.txt"
    "2026-02-03" "capture-upload" none).2.1 ?_
  have e2 : longTranscriptFixture.data = List.replicate 12345 'a' := rfl
  have hfix : jsTrim longTranscriptFixture = longTranscriptFixture := by
    unfold jsTrim
    rw [e2, htrim]
    rfl
  rw [hfix, e2, List.length_replicate]
  omega

/-- C6, counterexample.  With no configured default-model specification but
an existing selection, `applyConfiguredModelDefault` keeps the previous
selection (`prevState.selectedModel || models[0]`) instead of selecting the
first catalog entry, refuting the claim's "if ... no specification is
configured, the first catalog entry is selected". -/
theorem C6_unconfigured_keeps_selection_cex :
    applyConfiguredModelDefault {} [modelFixture, modelFixtureB] (some modelFixtureB) =
        some modelFixtureB ∧
      applyConfiguredModelDefault {} [modelFixture, modelFixtureB] (some modelFixtureB) ≠
        ([modelFixture, modelFixtureB] : List ModelInfo).head? := by
  constructor
  · decide
  · decide

/-- C6, amended: on an empty catalog the selection is null (no error); with
a parsed specification the first case-insensitively matching entry is
selected, falling back to the first catalog entry when nothing matches;
with no (parseable) specification the previous selection is kept when one
exists, else the first catalog entry is selected. -/
theorem C6_model_default_resolution (cfg : CaptureModelProps) (models : List ModelInfo)
    (prev : Option ModelInfo) :
    (models = [] → applyConfiguredModelDefault cfg models prev = none) ∧
    (∀ k, parseConfiguredDefaultModelKey cfg = some k → models ≠ [] →
      applyConfiguredModelDefault cfg models prev =
        (match models.find? (modelMatchesKey k) with
          | some m => some m
          | none => models.head?)) ∧
    (parseConfiguredDefaultModelKey cfg = none → models ≠ [] →
      applyConfiguredModelDefault cfg models prev =
        (match prev with | some m => some m | none => models.head?)) := by
  refine ⟨?_, ?_, ?_⟩
  · intro h
    simp [applyConfiguredModelDefault, h]
  · intro k hk hne
    have hemp : models.isEmpty = false := by
      cases models with
      | nil => exact absurd rfl hne
      | cons a t => rfl
    simp [applyConfiguredModelDefault, hemp, hk]
  · intro hk hne
    have hemp : models.isEmpty = false := by
      cases models with
      | nil => exact absurd rfl hne
      | cons a t => rfl
    simp [applyConfiguredModelDefault, hemp, hk]

/-- C6, witness: the spec scenario — catalog `[ollama/s1/llama3]` with
configured key `"ollama::s1::llama3"` resolves through the catalog search
(and that search selects the entry). -/
theorem C6_model_default_resolution_witness :
    applyConfiguredModelDefault cfgKeyFixture [modelFixture] none =
      (match ([modelFixture] : List ModelInfo).find?
          (modelMatchesKey ⟨"ollama", some "s1", "llama3"⟩) with
        | some m => some m
        | none => ([modelFixture] : List ModelInfo).head?) :=
  (C6_model_default_resolution cfgKeyFixture [modelFixture] none).2.1
    ⟨"ollama", some "s1", "llama3"⟩ (by decide) (by decide)

/-- C3: every state (in particular every reachable one) holds at most one
pending approval, and an `approval_resolution` metadata event clears it
unconditionally when the event carries no (string) `request_id`, while one
carrying a `request_id` clears it exactly when the pending record has no id
or the ids match. -/
theorem C3_pending_approval_resolution (st : CaptureState) (mid now : String) (e : Json) :
    pendingCount (handleMetadataEvent st mid now e) ≤ 1 ∧
    (eventTypeStr e = some "approval_resolution" → resolvedRequestId e = "" →
      (handleMetadataEvent st mid now e).pendingApproval = none) ∧
    (eventTypeStr e = some "approval_resolution" → resolvedRequestId e ≠ "" →
      (handleMetadataEvent st mid now e).pendingApproval =
        (match st.pendingApproval with
          | none => none
          | some p =>
            if p.request_id.getD "" = "" || p.request_id.getD "" = resolvedRequestId e
            then none else some p)) := by
  refine ⟨?_, ?_, ?_⟩
  · unfold pendingCount
    split <;> omega
  · intro ht hr
    simp only [handleMetadataEvent, ht]
    norm_num
    cases hp : st.pendingApproval with
    | none => simp
    | some p => simp [hr]
  · intro ht hr
    simp only [handleMetadataEvent, ht]
    norm_num
    cases hp : st.pendingApproval with
    | none => simp
    | some p =>
      simp only [hr]
      by_cases h1 : p.request_id.getD "" = ""
      · simp [h1]
      · simp only [h1]
        by_cases h2 : p.request_id.getD "" = resolvedRequestId e
        · simp [h2]
        · simp [h1, h2, hr]

/-- C3, witness: a pending approval with id `"r1"` is cleared by an
`approval_resolution` event that carries no `request_id`. -/
theorem C3_pending_approval_resolution_witness :
    (handleMetadataEvent approvalStateFixture "m1" "t1" resolutionEventFixture).pendingApproval
      = none :=
  (C3_pending_approval_resolution approvalStateFixture "m1" "t1"
    resolutionEventFixture).2.1 rfl rfl

/-- C8: invoking the orchestrator's send with no model selected issues no
service call, sets the error field to the select-a-model message, and
leaves the message log unchanged. -/
theorem C8_send_without_model (st : CaptureState) (props : CaptureProps)
    (uid aid now prompt : String) (userLabel : Option String)
    (dec : Option MCPApprovalDecision) (h : st.selectedModel = none) :
    sendPromptStep st props uid aid now prompt userLabel dec =
      ({ st with error := some noModelError }, none) ∧
    (sendPromptStep st props uid aid now prompt userLabel dec).1.messages = st.messages ∧
    (sendPromptStep st props uid aid now prompt userLabel dec).2 = none := by
  have h1 : sendPromptStep st props uid aid now prompt userLabel dec =
      ({ st with error := some noModelError }, none) := by
    unfold sendPromptStep
    rw [h]
  exact ⟨h1, by rw [h1], by rw [h1]⟩

/-- C8, witness at a concrete model-less state and the prompt `"hello"`. -/
theorem C8_send_without_model_witness :
    (sendPromptStep emptyCaptureState {} "u1" "a1" "t0" "hello" none none).2 = none ∧
    (sendPromptStep emptyCaptureState {} "u1" "a1" "t0" "hello" none none).1.messages =
      emptyCaptureState.messages :=
  ⟨(C8_send_without_model emptyCaptureState {} "u1" "a1" "t0" "hello" none none rfl).2.2,
   (C8_send_without_model emptyCaptureState {} "u1" "a1" "t0" "hello" none none rfl).2.1⟩

/-! ### Page default-model writer lemmas -/

theorem find_set_ne : ∀ (fs : JsonFields) (k k' : String) (v : Json), ¬ (k' = k) →
    (fs.set k v).find k' = fs.find k'
  | JsonFields.nil, k, k', v, h => by
    have hk : ¬ (k = k') := fun hh => h hh.symm
    simp [JsonFields.set, JsonFields.find, hk]
  | JsonFields.cons key val rest, k, k', v, h => by
    by_cases hk : key = k
    · subst hk
      have hne : ¬ (key = k') := fun hh => h hh.symm
      simp [JsonFields.set, JsonFields.find, hne]
    · by_cases hk' : key = k'
      · simp [JsonFields.set, hk, JsonFields.find, hk', h]
      · simp [JsonFields.set, hk, JsonFields.find, hk', find_set_ne rest k k' v h]

theorem getField_setJField_ne (c : Json) (k k' : String) (v : Json) (h : ¬ (k' = k)) :
    getField (setJField c k v) k' = getField c k' := by
  cases c with
  | obj fs => exact find_set_ne fs k k' v h
  | null => rfl
  | bool b => rfl
  | num n => rfl
  | str s => rfl
  | arr xs => rfl

theorem getField_moduleMutate_layouts (content : Json) (cfg : JsonFields) (req : String) :
    getField (moduleMutate content cfg req) "layouts" = getField content "layouts" := by
  unfold moduleMutate
  split
  · split
    · split
      · exact getField_setJField_ne content "modules" "layouts" _ (by decide)
      · exact getField_setJField_ne content "modules" "layouts" _ (by decide)
      · rfl
    · rfl
  · rfl

theorem layoutTargetCount_moduleMutate (content : Json) (cfg : JsonFields) (req : String) :
    layoutTargetCount (moduleMutate content cfg req) req = layoutTargetCount content req := by
  unfold layoutTargetCount
  rw [getField_moduleMutate_layouts]

/-- C7: once the page id, model and page-content validations pass,
`saveCaptureDefaultModelForPage` throws the "could not locate" error
exactly when zero module-definition and layout targets matched across both
scanned locations (and then no page update is issued — a `throwsMsg`
outcome carries no update); every success outcome reports
`updated_targets ≥ 1`. -/
theorem C7_save_default_model (pageId : String) (moduleId : Option String)
    (model : ModelInfo) (content : Json)
    (h1 : normalizePageId pageId ≠ "")
    (h2 : (buildDefaultModelConfig model).isSome = true)
    (h3 : isObjLike content = true) :
    (saveCaptureDefaultModelForPage pageId moduleId model content =
        SaveOutcome.throwsMsg locateErrorMsg ↔
      moduleTargetCount content (requestedIdOf moduleId) +
        layoutTargetCount content (requestedIdOf moduleId) = 0) ∧
    (∀ c n, saveCaptureDefaultModelForPage pageId moduleId model content =
        SaveOutcome.success c n → 1 ≤ n) := by
  obtain ⟨cfg, hcfg⟩ := Option.isSome_iff_exists.mp h2
  have hsave : saveCaptureDefaultModelForPage pageId moduleId model content =
      (if moduleTargetCount content (requestedIdOf moduleId) +
          layoutTargetCount content (requestedIdOf moduleId) < 1 then
        SaveOutcome.throwsMsg locateErrorMsg
      else
        SaveOutcome.success
          (layoutMutate (moduleMutate content cfg (requestedIdOf moduleId)) cfg
            (requestedIdOf moduleId))
          (moduleTargetCount content (requestedIdOf moduleId) +
            layoutTargetCount content (requestedIdOf moduleId))) := by
    unfold saveCaptureDefaultModelForPage
    rw [if_neg h1]
    simp only [hcfg, if_pos h3, applyDefaultModelToModules, applyDefaultModelToLayouts]
    rw [layoutTargetCount_moduleMutate]
  constructor
  · rw [hsave]
    constructor
    · intro h
      by_cases hlt : moduleTargetCount content (requestedIdOf moduleId) +
          layoutTargetCount content (requestedIdOf moduleId) < 1
      · omega
      · rw [if_neg hlt] at h
        exact absurd h (by simp)
    · intro h
      rw [if_pos (by omega)]
  · intro c n h
    rw [hsave] at h
    by_cases hlt : moduleTargetCount content (requestedIdOf moduleId) +
        layoutTargetCount content (requestedIdOf moduleId) < 1
    · rw [if_pos hlt] at h
      cases h
    · rw [if_neg hlt] at h
      injection h with hc hn
      omega

/-- C7, witness: at a page holding one capture module the save does not
throw the "could not locate" error (one target matches). -/
theorem C7_save_default_model_witness :
    ¬ (saveCaptureDefaultModelForPage "page-1" none modelFixture pageContentFixture =
        SaveOutcome.throwsMsg locateErrorMsg) :=
  fun h =>
    absurd
      ((C7_save_default_model "page-1" none modelFixture pageContentFixture
        (by decide) (by decide) (by decide)).1.mp h)
      (by decide)

end BDLib
